import Mathlib

/-!
Verification of the FinanceHub Pro application (`src/app.py`).

The Python source is shallowly embedded: strings become `List Char`,
Python `int` becomes `ℤ` (or `ℕ` for counters), Python `float` polarity
values and float division become `ℚ`, fallible external calls become
`Option`-valued parameters, and the Streamlit session/disk state becomes
explicit state records.
-/

/-- CPython `round()` applied to a numeric value: round to the nearest
integer, ties going to the even integer (banker's rounding), modelled on
`ℚ`.  In `rate_blog` the argument is `(g*4 + b)/5` for integers `g`, `b`,
whose exact fractional part is never 1/2, so the float/rational gap and
the tie-breaking rule are immaterial there. -/
def pyRound (q : ℚ) : ℤ :=
  if q - ⌊q⌋ < 1/2 then ⌊q⌋
  else if (1:ℚ)/2 < q - ⌊q⌋ then ⌊q⌋ + 1
  else if ⌊q⌋ % 2 = 0 then ⌊q⌋ else ⌊q⌋ + 1

/-- Python truthiness of an `int`-or-`None` value (`if gemini_rating:`):
`None` and `0` are falsy, every other integer is truthy. -/
def pyTruthyInt : Option ℤ → Bool
  | none => false
  | some n => n != 0

/-- `rate_with_textblob` (src/app.py:81-92) as a function of the TextBlob
polarity value (the polarity computation itself is the external TextBlob
library; the function branches only on the polarity). -/
def rate_with_textblob (polarity : ℚ) : ℤ :=
  if polarity ≤ -0.6 then 1
  else if polarity ≤ -0.2 then 2
  else if polarity ≤ 0.2 then 3
  else if polarity ≤ 0.6 then 4
  else 5

/-- Python whitespace characters stripped by `str.strip()` with no
argument (ASCII range; the app only strips model output and form text). -/
def pyWhitespace : List Char := [' ', '\t', '\n', '\x0d', '\x0b', '\x0c']

/-- Python `s.strip(chars)`: remove from both ends every character that
belongs to `cs`. -/
def pyStripChars (cs : List Char) (s : List Char) : List Char :=
  ((s.dropWhile (fun c => cs.contains c)).reverse.dropWhile
    (fun c => cs.contains c)).reverse

/-- Python `s.strip()` (no argument): strip whitespace from both ends. -/
def pyStrip (s : List Char) : List Char := pyStripChars pyWhitespace s

/-- The digits of CPython `int(s)` applied to a string of ASCII decimal
digits: `none` unless the string is non-empty and all digits (a failed
parse raises `ValueError`, which `rate_with_gemini` catches).  CPython's
underscore digit grouping and non-ASCII decimal digits are not modelled;
no claim depends on them. -/
def parseDigits (s : List Char) : Option ℕ :=
  if s.isEmpty || !(s.all Char.isDigit) then none
  else some (s.foldl (fun a c => a * 10 + (c.toNat - '0'.toNat)) 0)

/-- CPython `int(s)` on an already whitespace-stripped string: optional
sign followed by decimal digits. -/
def pyIntParse (s : List Char) : Option ℤ :=
  match s with
  | '+' :: rest => (parseDigits rest).map (fun n => (n : ℤ))
  | '-' :: rest => (parseDigits rest).map (fun n => -(n : ℤ))
  | _ => (parseDigits s).map (fun n => (n : ℤ))

/-- `rate_with_gemini` (src/app.py:94-107) as a function of the model's
textual response: `none` models `generate_content` raising; otherwise the
code returns `int(res.text.strip())`, with a failed parse caught by the
bare `except` and converted to `None`. -/
def rate_with_gemini (response : Option (List Char)) : Option ℤ :=
  match response with
  | none => none
  | some txt => pyIntParse (pyStrip txt)

/-- `rate_blog` (src/app.py:109-115) as a function of the two component
ratings: if the Gemini rating is truthy, return
`max(1, min(5, round((gemini_rating * 4 + blob_rating) / 5)))`,
else return the TextBlob rating. -/
def rate_blog (gemini_rating : Option ℤ) (blob_rating : ℤ) : ℤ :=
  if pyTruthyInt gemini_rating then
    max 1 (min 5 (pyRound (((gemini_rating.getD 0 * 4 + blob_rating : ℤ) : ℚ) / 5)))
  else blob_rating

/-- The em-dash separator used by `parse_alerts`. -/
def emDash : Char := '—'

/-- The character set of `p.strip(" -*—")` in `parse_alerts`. -/
def alertStripSet : List Char := [' ', '-', '*', '—']

/-- Python `line.split("—")` for the one-character em-dash separator:
split into the (possibly empty) segments between occurrences. -/
def splitOnChar (sep : Char) : List Char → List (List Char)
  | [] => [[]]
  | c :: cs =>
    if c = sep then [] :: splitOnChar sep cs
    else
      match splitOnChar sep cs with
      | [] => [[c]]
      | t :: ts => (c :: t) :: ts

/-- A transient market alert record (`parse_alerts` dictionary). -/
structure AlertRecord where
  headline : List Char
  stock : List Char
  impact : List Char
  summary : List Char

deriving instance DecidableEq for AlertRecord

/-- One iteration of the `parse_alerts` loop (src/app.py:178-194): skip
the line if it is blank or has no em dash; otherwise split on the em
dash, strip each part with `strip(" -*—")`, and emit a record from the
first four parts when at least four exist.  (The `try/except` in the
source is dead: no statement in the body raises.) -/
def parseLine (line : List Char) : Option AlertRecord :=
  if pyStrip line = [] ∨ line.contains emDash = false then none
  else
    match (splitOnChar emDash line).map (pyStripChars alertStripSet) with
    | p0 :: p1 :: p2 :: p3 :: _ => some ⟨p0, p1, p2, p3⟩
    | _ => none

/-- `parse_alerts` (src/app.py:178-194): fold `parseLine` over the lines,
keeping the emitted records in input order. -/
def parse_alerts (lines : List (List Char)) : List AlertRecord :=
  lines.filterMap parseLine

/-- One news article as delivered by the news API: `title` and
`description` are `none` when the JSON field is absent or null. -/
structure Article where
  title : Option (List Char)
  description : Option (List Char)

deriving instance DecidableEq for Article

/-- Python truthiness of a string-or-`None` value: `None` and the empty
string are falsy. -/
def pyTruthyStr : Option (List Char) → Bool
  | none => false
  | some s => !s.isEmpty

/-- The list-comprehension body of `fetch_news`: keep an article when
`article.get('title')` and `article.get('description')` are both truthy,
rendering it as `f"{article['title']}. {article['description']}"`. -/
def mkHeadline (a : Article) : Option (List Char) :=
  if pyTruthyStr a.title && pyTruthyStr a.description then
    some (a.title.getD [] ++ ('.' :: ' ' :: []) ++ a.description.getD [])
  else none

/-- Outcome of the HTTP request made by `fetch_news`: the three caught
exception families, or a decoded response carrying the news API's
`status == 'error'` flag and its article list. -/
inductive HttpOutcome where
  | timeout
  | requestError (msg : List Char)
  | otherError (msg : List Char)
  | response (statusError : Bool) (articles : List Article)

/-- `fetch_news` (src/app.py:120-150) as a function of the HTTP outcome:
every caught exception, an API error status, and an empty article list
all yield `[]`; otherwise the filtered headline strings. -/
def fetch_news : HttpOutcome → List (List Char)
  | .timeout => []
  | .requestError _ => []
  | .otherError _ => []
  | .response statusError articles =>
    if statusError then []
    else if articles.isEmpty then []
    else articles.filterMap mkHeadline

/-- A persisted blog record (the dictionary built in the blog form
handler, src/app.py:726-736). -/
structure Blog where
  id : ℕ
  user_name : List Char
  title : List Char
  content : List Char
  tag : List Char
  time : ℕ
  likes : ℕ
  comments : ℕ
  rating : ℤ

deriving instance DecidableEq for Blog

/-- A persisted document-summary record (the dictionary built in the
summarizer handler, src/app.py:561-568). -/
structure SummaryRecord where
  id : ℕ
  title : List Char
  dtype : List Char
  content : List Char
  summary : List Char
  time : ℕ

deriving instance DecidableEq for SummaryRecord

/-- `save_blogs` (src/app.py:40-43): the resulting contents of
`blogs.pkl`, modelling the pickle serialization of the record list as
faithful (pickle round-trips these values). -/
def save_blogs (blogs : List Blog) : Option (List Blog) := some blogs

/-- `load_blogs` (src/app.py:45-51): read the whole file back, or return
`[]` when the file does not exist (`none`). -/
def load_blogs : Option (List Blog) → List Blog
  | some bs => bs
  | none => []

/-- `save_summaries` (src/app.py:53-56), modelled like `save_blogs`. -/
def save_summaries (summaries : List SummaryRecord) : Option (List SummaryRecord) :=
  some summaries

/-- `load_summaries` (src/app.py:58-64), modelled like `load_blogs`. -/
def load_summaries : Option (List SummaryRecord) → List SummaryRecord
  | some ss => ss
  | none => []

/-- The blog part of the Streamlit session state plus the backing file:
`st.session_state.blogs`, `st.session_state.blog_counter`, and the
contents of `blogs.pkl`. -/
structure BlogState where
  file : Option (List Blog)
  blogs : List Blog
  blog_counter : ℕ

/-- Session-state initialization (src/app.py:69-72): load the stored
blogs and start the counter at their count plus one. -/
def init_blog_state (file : Option (List Blog)) : BlogState :=
  ⟨file, load_blogs file, (load_blogs file).length + 1⟩

/-- The summary part of the session state plus `summaries.pkl`
(src/app.py:73-76). -/
structure SummaryState where
  file : Option (List SummaryRecord)
  summaries : List SummaryRecord
  summary_counter : ℕ

/-- Session-state initialization for summaries (src/app.py:73-76). -/
def init_summary_state (file : Option (List SummaryRecord)) : SummaryState :=
  ⟨file, load_summaries file, (load_summaries file).length + 1⟩

/-- The blog form submission handler (src/app.py:715-740): reject when a
required field is empty or the content is under 50 characters; otherwise
rate the content, append the new record, bump the counter and save.  The
external inputs (Gemini response rating and TextBlob polarity) and the
timestamp are parameters. -/
def submit_blog (s : BlogState) (user_name title content tag : List Char)
    (gemini : Option ℤ) (polarity : ℚ) (time : ℕ) : BlogState :=
  if user_name = [] ∨ title = [] ∨ content = [] then s
  else if content.length < 50 then s
  else
    let rating := rate_blog gemini (rate_with_textblob polarity)
    let b : Blog := ⟨s.blog_counter, user_name, title, content,
      (if tag = [] then "General Finance".toList else tag), time, 0, 0, rating⟩
    let blogs := s.blogs ++ [b]
    ⟨save_blogs blogs, blogs, s.blog_counter + 1⟩

/-- The summarizer submission handler (src/app.py:551-572): reject when
the stripped content is empty or under 100 characters; otherwise build
the record (title defaulting to `"Document {id}"`, content truncated to
500 characters plus `"..."`), append it, bump the counter and save.  The
model's summary text is a parameter. -/
def submit_summary (s : SummaryState)
    (doc_title doc_type doc_content model_text : List Char) (time : ℕ) : SummaryState :=
  if pyStrip doc_content = [] then s
  else if (pyStrip doc_content).length < 100 then s
  else
    let title := if doc_title = [] then
      "Document ".toList ++ (Nat.repr s.summary_counter).toList else doc_title
    let preview := if 500 < doc_content.length then
      doc_content.take 500 ++ "...".toList else doc_content
    let r : SummaryRecord := ⟨s.summary_counter, title, doc_type, preview, model_text, time⟩
    let summaries := s.summaries ++ [r]
    ⟨save_summaries summaries, summaries, s.summary_counter + 1⟩

/-- One row of inputs to the blog form, bundling the form fields with the
external-service outcomes for that submission. -/
structure BlogInput where
  user_name : List Char
  title : List Char
  content : List Char
  tag : List Char
  gemini : Option ℤ
  polarity : ℚ
  time : ℕ

/-- A sequence of blog form submissions within one session. -/
def submit_blog_list (s : BlogState) (inputs : List BlogInput) : BlogState :=
  inputs.foldl
    (fun st i => submit_blog st i.user_name i.title i.content i.tag i.gemini i.polarity i.time) s

/-- The conditions under which the blog form accepts a submission and
creates a record. -/
def validBlogInput (i : BlogInput) : Prop :=
  i.user_name ≠ [] ∧ i.title ≠ [] ∧ i.content ≠ [] ∧ 50 ≤ i.content.length

instance (i : BlogInput) : Decidable (validBlogInput i) := by
  unfold validBlogInput; infer_instance

/-- ASCII lowercasing of one character; Python `str.lower()` restricted
to ASCII, which covers every glossary key and ASCII queries. -/
def pyLowerChar (c : Char) : Char :=
  if 'A' ≤ c ∧ c ≤ 'Z' then Char.ofNat (c.toNat + 32) else c

/-- Python `s.lower()` on ASCII strings. -/
def pyLower (s : List Char) : List Char := s.map pyLowerChar

/-- The static `FINANCE_TERMS` dictionary (src/app.py:228-254), as the
insertion-ordered list of key/definition pairs. -/
def FINANCE_TERMS : List (List Char × List Char) := [
  ("Balance Sheet".toList, "बैलेंस शीट / Bilan / Balance general - A financial statement showing assets, liabilities, and equity".toList),
  ("Net Profit".toList, "शुद्ध लाभ / Bénéfice net / Utilidad neta - Revenue minus all expenses and taxes".toList),
  ("Assets".toList, "परिसंपत्तियाँ / Actifs / Activos - Resources owned by a business with economic value".toList),
  ("Liabilities".toList, "देनदारियाँ / Passifs / Pasivos - Financial obligations or debts owed".toList),
  ("Revenue".toList, "राजस्व / Chiffre d\x27affaires / Ingresos - Total income generated from business operations".toList),
  ("Depreciation".toList, "मूल्यह्रास / Amortissement / Depreciación - Decrease in asset value over time".toList),
  ("Dividend".toList, "लाभांश / Dividende / Dividendo - Payment made to shareholders from profits".toList),
  ("Cash Flow".toList, "नकदी प्रवाह / Flux de trésorerie / Flujo de efectivo - Movement of money in and out of business".toList),
  ("ROI".toList, "निवेश प्रतिफल / Retour sur investissement / Retorno de inversión - Return on Investment percentage".toList),
  ("IPO".toList, "प्रारंभिक सार्वजनिक निर्गम / Offre publique initiale / Oferta pública inicial - Initial Public Offering".toList),
  ("Capital Gains".toList, "पूंजी लाभ / Gains en capital / Ganancias de capital - Profit from selling an asset".toList),
  ("Equity".toList, "स्वामित्व पूंजी / Capital-actions / Capital accionario - Ownership value in a company".toList),
  ("Debt".toList, "ऋण / Dette / Deuda - Money owed to creditors".toList),
  ("Portfolio".toList, "निवेश पोर्टफोलियो / Portefeuille / Portafolio - Collection of investments".toList),
  ("Mutual Fund".toList, "म्यूचुअल फंड / Fonds commun / Fondo mutuo - Pooled investment vehicle".toList),
  ("Bond".toList, "बांड / Obligation / Bono - Fixed-income debt security".toList),
  ("Stock".toList, "शेयर / Action / Acción - Share of ownership in a company".toList),
  ("Interest Rate".toList, "ब्याज दर / Taux d\x27intérêt / Tasa de interés - Cost of borrowing money".toList),
  ("Inflation".toList, "मुद्रास्फीति / Inflation / Inflación - Rate of price increase over time".toList),
  ("GDP".toList, "सकल घरेलू उत्पाद / PIB / PIB - Gross Domestic Product".toList),
  ("Market Cap".toList, "बाजार पूंजीकरण / Capitalisation boursière / Capitalización bursátil - Total market value of shares".toList),
  ("Bull Market".toList, "तेजी बाजार / Marché haussier / Mercado alcista - Rising market trend".toList),
  ("Bear Market".toList, "मंदी बाजार / Marché baissier / Mercado bajista - Falling market trend".toList),
  ("Hedge Fund".toList, "हेज फंड / Fonds spéculatif / Fondo de cobertura - Alternative investment fund".toList),
  ("Credit Rating".toList, "ऋण रेटिंग / Notation de crédit / Calificación crediticia - Assessment of creditworthiness".toList)]

/-- Python `needle in hay` for strings: contiguous (possibly empty)
substring test. -/
def pySubstring (needle hay : List Char) : Bool := decide (needle <:+: hay)

/-- The partial-match list of the glossary search (src/app.py:477-478):
every key containing the stripped query case-insensitively. -/
def glossary_matches (query : List Char) : List (List Char) :=
  (FINANCE_TERMS.map Prod.fst).filter
    (fun t => pySubstring (pyLower (pyStrip query)) (pyLower t))

/-- The glossary results actually rendered (src/app.py:462-499): on an
exact key match, that single key with its definition; otherwise the
partial matches capped at five (`matches[:5]`), each with its
definition. -/
def glossary_displayed (query : List Char) : List (List Char × List Char) :=
  match FINANCE_TERMS.find? (fun kv => kv.1 == pyStrip query) with
  | some kv => [kv]
  | none =>
    (FINANCE_TERMS.filter
      (fun kv => pySubstring (pyLower (pyStrip query)) (pyLower kv.1))).take 5

/-- One row of inputs to the summarizer form, bundling the form fields
with the model's summary text for that submission. -/
structure SummaryInput where
  title : List Char
  dtype : List Char
  content : List Char
  model_text : List Char
  time : ℕ

/-- A sequence of summarizer submissions within one session. -/
def submit_summary_list (s : SummaryState) (inputs : List SummaryInput) : SummaryState :=
  inputs.foldl
    (fun st i => submit_summary st i.title i.dtype i.content i.model_text i.time) s

/-- The condition under which the summarizer form accepts a submission
and creates a record: the stripped content has at least 100 characters
(which also makes it non-blank). -/
def validSummaryInput (i : SummaryInput) : Prop :=
  100 ≤ (pyStrip i.content).length

instance (i : SummaryInput) : Decidable (validSummaryInput i) := by
  unfold validSummaryInput; infer_instance

/-! ### Helper lemmas -/

lemma pyRound_eq_round (q : ℚ) (h : q - ⌊q⌋ ≠ 1/2) : pyRound q = round q := by
  have h0 : (0:ℚ) ≤ q - ⌊q⌋ := by
    have := Int.floor_le q
    linarith
  have h1 : q - ⌊q⌋ < 1 := by
    have := Int.lt_floor_add_one q
    linarith
  unfold pyRound
  rw [round_eq]
  split_ifs with hlt hgt heven
  · symm
    rw [Int.floor_eq_iff]
    constructor <;> linarith
  · symm
    rw [Int.floor_eq_iff]
    push_cast
    constructor <;> linarith
  · exact absurd (by linarith) h
  · exact absurd (by linarith) h

lemma pyRound_int_div_five (n : ℤ) : pyRound ((n:ℚ)/5) = round ((n:ℚ)/5) := by
  apply pyRound_eq_round
  intro heq
  have h5 : ((n:ℚ)/5 - ⌊(n:ℚ)/5⌋) * 10 = 5 := by rw [heq]; norm_num
  have h10 : (n:ℚ) * 2 - (⌊(n:ℚ)/5⌋ : ℚ) * 10 = 5 := by
    field_simp at h5
    linarith
  have hz : n * 2 - ⌊(n:ℚ)/5⌋ * 10 = 5 := by exact_mod_cast h10
  omega

lemma rate_with_textblob_bounds (p : ℚ) :
    1 ≤ rate_with_textblob p ∧ rate_with_textblob p ≤ 5 := by
  unfold rate_with_textblob
  split_ifs <;> norm_num

lemma rate_blog_bounds (g : Option ℤ) (p : ℚ) :
    1 ≤ rate_blog g (rate_with_textblob p) ∧ rate_blog g (rate_with_textblob p) ≤ 5 := by
  unfold rate_blog
  split_ifs with ht
  · constructor
    · exact le_max_left 1 _
    · exact max_le (by norm_num) (min_le_left 5 _)
  · exact rate_with_textblob_bounds p

/-! ### Claims -/

/-- C1: for model rating `m ∈ [1,5]` and heuristic rating `b ∈ [1,5]`,
the aggregator returns `clamp(round((m*4 + b)/5), 1, 5)` when the model
rating is present (non-`None`, non-zero), and returns the heuristic
rating unmodified when it is absent; in particular `m=5, b=3` gives `5`
and `m=1, b=5` gives `2`. -/
theorem c1_rating_aggregator :
    (∀ m b : ℤ, 1 ≤ m → m ≤ 5 → 1 ≤ b → b ≤ 5 →
      rate_blog (some m) b = max 1 (min 5 (round (((m * 4 + b : ℤ) : ℚ) / 5)))) ∧
    (∀ b : ℤ, rate_blog none b = b) ∧
    (∀ b : ℤ, rate_blog (some 0) b = b) ∧
    rate_blog (some 5) 3 = 5 ∧ rate_blog (some 1) 5 = 2 := by
  have key : ∀ m b : ℤ, m ≠ 0 →
      rate_blog (some m) b = max 1 (min 5 (round (((m * 4 + b : ℤ) : ℚ) / 5))) := by
    intro m b hm
    unfold rate_blog
    rw [if_pos (by simp [pyTruthyInt, hm])]
    simp only [Option.getD_some]
    rw [pyRound_int_div_five]
  refine ⟨fun m b hm1 _ _ _ => key m b (by omega), fun b => rfl,
    fun b => by simp [rate_blog, pyTruthyInt], ?_, ?_⟩
  · rw [key 5 3 (by norm_num)]
    norm_num [round_eq]
  · rw [key 1 5 (by norm_num)]
    norm_num [round_eq]

theorem c1_witness :
    (1:ℤ) ≤ 2 ∧ (2:ℤ) ≤ 5 ∧ (1:ℤ) ≤ 3 ∧ (3:ℤ) ≤ 5 ∧
    rate_blog (some 2) 3 = max 1 (min 5 (round (((2 * 4 + 3 : ℤ) : ℚ) / 5))) :=
  ⟨by norm_num, by norm_num, by norm_num, by norm_num,
    c1_rating_aggregator.1 2 3 (by norm_num) (by norm_num) (by norm_num) (by norm_num)⟩

/-- C2: the Sentiment Scorer maps a polarity `p` to an integer in
`[1,5]` by the left-closed intervals `p ≤ −0.6 → 1`,
`(−0.6,−0.2] → 2`, `(−0.2,0.2] → 3`, `(0.2,0.6] → 4`, else `5`; it is
non-decreasing in `p`, and the boundary polarities `−0.6, −0.2, 0.2,
0.6` map to `1, 2, 3, 4`. -/
theorem c2_sentiment_scorer :
    (∀ p : ℚ, 1 ≤ rate_with_textblob p ∧ rate_with_textblob p ≤ 5) ∧
    (∀ p q : ℚ, p ≤ q → rate_with_textblob p ≤ rate_with_textblob q) ∧
    (∀ p : ℚ,
      (p ≤ -0.6 → rate_with_textblob p = 1) ∧
      (-0.6 < p → p ≤ -0.2 → rate_with_textblob p = 2) ∧
      (-0.2 < p → p ≤ 0.2 → rate_with_textblob p = 3) ∧
      (0.2 < p → p ≤ 0.6 → rate_with_textblob p = 4) ∧
      (0.6 < p → rate_with_textblob p = 5)) ∧
    rate_with_textblob (-0.6) = 1 ∧ rate_with_textblob (-0.2) = 2 ∧
    rate_with_textblob 0.2 = 3 ∧ rate_with_textblob 0.6 = 4 := by
  refine ⟨rate_with_textblob_bounds, ?_, ?_, ?_, ?_, ?_, ?_⟩
  · intro p q hpq
    unfold rate_with_textblob
    split_ifs <;> linarith
  · intro p
    refine ⟨?_, ?_, ?_, ?_, ?_⟩ <;>
      · intros
        unfold rate_with_textblob
        split_ifs <;> linarith
  · norm_num [rate_with_textblob]
  · norm_num [rate_with_textblob]
  · norm_num [rate_with_textblob]
  · norm_num [rate_with_textblob]

theorem c2_witness :
    (0 : ℚ) ≤ 1 ∧ rate_with_textblob 0 ≤ rate_with_textblob 1 :=
  ⟨by norm_num, c2_sentiment_scorer.2.1 0 1 (by norm_num)⟩

/-- C3: the News Alert Parser skips blank lines and lines without an em
dash; otherwise it splits the line on the em dash, strips each segment of
surrounding whitespace, hyphens, asterisks and em dashes, and emits one
record from the first four segments when at least four result (discarding
the excess), none otherwise; output order follows input order, and the
given example line yields exactly its four fields. -/
theorem c3_alert_parsing :
    (∀ l1 l2, parse_alerts (l1 ++ l2) = parse_alerts l1 ++ parse_alerts l2) ∧
    (∀ line, pyStrip line = [] → parseLine line = none) ∧
    (∀ line, line.contains emDash = false → parseLine line = none) ∧
    (∀ line p0 p1 p2 p3 rest,
      (splitOnChar emDash line).map (pyStripChars alertStripSet)
        = p0 :: p1 :: p2 :: p3 :: rest →
      pyStrip line ≠ [] → line.contains emDash = true →
      parseLine line = some ⟨p0, p1, p2, p3⟩) ∧
    (∀ line, (splitOnChar emDash line).length < 4 → parseLine line = none) ∧
    parse_alerts
        ["Fed raises rates — Banking — Negative — Higher rates squeeze margins".toList]
      = [⟨"Fed raises rates".toList, "Banking".toList, "Negative".toList,
          "Higher rates squeeze margins".toList⟩] := by
  refine ⟨?_, ?_, ?_, ?_, ?_, ?_⟩
  · intro l1 l2
    exact List.filterMap_append l1 l2 parseLine
  · intro line hb
    unfold parseLine
    rw [if_pos (Or.inl hb)]
  · intro line hd
    unfold parseLine
    rw [if_pos (Or.inr hd)]
  · intro line p0 p1 p2 p3 rest hmap hb hd
    unfold parseLine
    have hcond : ¬(pyStrip line = [] ∨ line.contains emDash = false) := by
      push_neg
      exact ⟨hb, by rw [hd]; simp⟩
    rw [if_neg hcond, hmap]
  · intro line hlen
    unfold parseLine
    split_ifs with h
    · rfl
    · have hlen2 : ((splitOnChar emDash line).map (pyStripChars alertStripSet)).length < 4 := by
        simpa using hlen
      rcases hps : (splitOnChar emDash line).map (pyStripChars alertStripSet) with
        _ | ⟨a, _ | ⟨b, _ | ⟨c, _ | ⟨d, rest⟩⟩⟩⟩
      · rfl
      · rfl
      · rfl
      · rfl
      · rw [hps] at hlen2
        simp at hlen2
        omega
  · decide

theorem c3_witness :
    pyStrip "   ".toList = [] ∧ parseLine "   ".toList = none :=
  ⟨by decide, c3_alert_parsing.2.1 "   ".toList (by decide)⟩

/-- C4 (as stated) is false: the client parses the trimmed response with
`int()` and returns whatever integer results, with no range check, so a
model response of `"7"` yields `7 ∉ [1,5]`. -/
theorem c4_counterexample :
    rate_with_gemini (some ['7']) = some 7 ∧
    ¬(∀ r n, rate_with_gemini r = some n → 1 ≤ n ∧ n ≤ 5) := by
  constructor
  · decide
  · intro h
    have := h (some ['7']) 7 (by decide)
    omega

/-- C4 (amended): the Model-Rating Client returns the trimmed model
response parsed as an integer, or `None`; on any failure (call raised, or
the trimmed response is not an integer literal) it returns `None` and
never raises. -/
theorem c4_model_rating_client :
    rate_with_gemini none = none ∧
    (∀ t, pyIntParse (pyStrip t) = none → rate_with_gemini (some t) = none) ∧
    (∀ t n, pyIntParse (pyStrip t) = some n → rate_with_gemini (some t) = some n) ∧
    (∀ r, rate_with_gemini r = none ∨ ∃ n, rate_with_gemini r = some n) ∧
    rate_with_gemini (some "  4  ".toList) = some 4 ∧
    rate_with_gemini (some "four".toList) = none ∧
    rate_with_gemini (some "4.5".toList) = none := by
  refine ⟨rfl, fun t h => h, fun t n h => h, ?_, by decide, by decide, by decide⟩
  intro r
  cases hr : rate_with_gemini r with
  | none => exact Or.inl rfl
  | some n => exact Or.inr ⟨n, rfl⟩

theorem c4_witness :
    pyIntParse (pyStrip "x".toList) = none ∧ rate_with_gemini (some "x".toList) = none :=
  ⟨by decide, c4_model_rating_client.2.1 "x".toList (by decide)⟩

lemma dropWhile_length_le {α : Type} (p : α → Bool) (l : List α) :
    (l.dropWhile p).length ≤ l.length := by
  induction l with
  | nil => simp
  | cons a l ih =>
    rw [List.dropWhile_cons]
    split_ifs
    · exact le_trans ih (by simp)
    · simp

lemma pyStrip_length_le (s : List Char) : (pyStrip s).length ≤ s.length := by
  unfold pyStrip pyStripChars
  have h1 := dropWhile_length_le (fun c => pyWhitespace.contains c) s
  have h2 := dropWhile_length_le (fun c => pyWhitespace.contains c)
    (s.dropWhile (fun c => pyWhitespace.contains c)).reverse
  simp only [List.length_reverse] at h1 h2 ⊢
  omega

/-- C5: every blog record ever created carries a rating in `{1,…,5}`,
whatever integer (or `None`) the Model-Rating Client produced, and the
submission handler (the only operation touching the blog list) preserves
the invariant — records are appended, never mutated. -/
theorem c5_rating_invariant :
    (∀ (g : Option ℤ) (p : ℚ),
      1 ≤ rate_blog g (rate_with_textblob p) ∧ rate_blog g (rate_with_textblob p) ≤ 5) ∧
    (∀ (s : BlogState) un ti co ta g p t,
      (∀ b ∈ s.blogs, 1 ≤ b.rating ∧ b.rating ≤ 5) →
      ∀ b ∈ (submit_blog s un ti co ta g p t).blogs, 1 ≤ b.rating ∧ b.rating ≤ 5) := by
  refine ⟨rate_blog_bounds, ?_⟩
  intro s un ti co ta g p t hs b hb
  unfold submit_blog at hb
  split_ifs at hb
  · exact hs b hb
  · exact hs b hb
  all_goals
    simp only [List.mem_append, List.mem_singleton] at hb
  all_goals
    rcases hb with h | h
  · exact hs b h
  · subst h
    exact rate_blog_bounds g p
  · exact hs b h
  · subst h
    exact rate_blog_bounds g p

theorem c5_witness :
    ((⟨none, [], 1⟩ : BlogState).blogs = []) ∧
    ((⟨1, "u".toList, "t".toList, List.replicate 50 'x', "General Finance".toList,
        0, 0, 0, rate_blog none (rate_with_textblob 0)⟩ : Blog) ∈
      (submit_blog ⟨none, [], 1⟩ "u".toList "t".toList (List.replicate 50 'x')
        [] none 0 0).blogs) ∧
    (1 ≤ rate_blog none (rate_with_textblob 0) ∧
      rate_blog none (rate_with_textblob 0) ≤ 5) := by
  have hmem : (⟨1, "u".toList, "t".toList, List.replicate 50 'x', "General Finance".toList,
      0, 0, 0, rate_blog none (rate_with_textblob 0)⟩ : Blog) ∈
      (submit_blog ⟨none, [], 1⟩ "u".toList "t".toList (List.replicate 50 'x')
        [] none 0 0).blogs := by
    unfold submit_blog
    rw [if_neg (by simp), if_neg (by simp)]
    simp
  exact ⟨rfl, hmem,
    c5_rating_invariant.2 ⟨none, [], 1⟩ "u".toList "t".toList (List.replicate 50 'x')
      [] none 0 0 (by simp) _ hmem⟩

lemma submit_blog_accepts (s : BlogState) (i : BlogInput) (h : validBlogInput i) :
    ∃ b : Blog, b.id = s.blog_counter ∧
      submit_blog s i.user_name i.title i.content i.tag i.gemini i.polarity i.time =
        ⟨some (s.blogs ++ [b]), s.blogs ++ [b], s.blog_counter + 1⟩ := by
  obtain ⟨hu, ht, hc, hl⟩ := h
  refine ⟨⟨s.blog_counter, i.user_name, i.title, i.content,
    (if i.tag = [] then "General Finance".toList else i.tag), i.time, 0, 0,
    rate_blog i.gemini (rate_with_textblob i.polarity)⟩, rfl, ?_⟩
  unfold submit_blog
  rw [if_neg (by simp [hu, ht, hc]), if_neg (by omega)]
  rfl

lemma submit_blog_list_spec (inputs : List BlogInput) : ∀ (s : BlogState),
    (∀ i ∈ inputs, validBlogInput i) →
    ∃ created, (submit_blog_list s inputs).blogs = s.blogs ++ created ∧
      created.map Blog.id = List.range' s.blog_counter inputs.length ∧
      (submit_blog_list s inputs).blog_counter = s.blog_counter + inputs.length := by
  induction inputs with
  | nil =>
    intro s _
    exact ⟨[], by simp [submit_blog_list], by simp, by simp [submit_blog_list]⟩
  | cons i rest ih =>
    intro s hv
    obtain ⟨b, hbid, hstep⟩ := submit_blog_accepts s i (hv i (List.mem_cons_self i rest))
    have hfold : submit_blog_list s (i :: rest) =
        submit_blog_list (submit_blog s i.user_name i.title i.content i.tag
          i.gemini i.polarity i.time) rest := rfl
    obtain ⟨created, hcb, hcid, hcc⟩ :=
      ih ⟨some (s.blogs ++ [b]), s.blogs ++ [b], s.blog_counter + 1⟩
        (fun j hj => hv j (List.mem_cons_of_mem i hj))
    refine ⟨b :: created, ?_, ?_, ?_⟩
    · rw [hfold, hstep, hcb]
      simp
    · rw [List.length_cons, List.range'_succ, List.map_cons, hbid]
      exact congrArg (s.blog_counter :: ·) hcid
    · rw [hfold, hstep, hcc]
      show s.blog_counter + 1 + rest.length = s.blog_counter + (rest.length + 1)
      omega

lemma submit_summary_accepts (s : SummaryState) (i : SummaryInput)
    (h : validSummaryInput i) :
    ∃ r : SummaryRecord, r.id = s.summary_counter ∧
      submit_summary s i.title i.dtype i.content i.model_text i.time =
        ⟨some (s.summaries ++ [r]), s.summaries ++ [r], s.summary_counter + 1⟩ := by
  unfold validSummaryInput at h
  refine ⟨⟨s.summary_counter,
    (if i.title = [] then "Document ".toList ++ (Nat.repr s.summary_counter).toList
      else i.title),
    i.dtype,
    (if 500 < i.content.length then i.content.take 500 ++ "...".toList else i.content),
    i.model_text, i.time⟩, rfl, ?_⟩
  have h1 : ¬ pyStrip i.content = [] := by
    intro hc
    rw [hc] at h
    simp only [List.length_nil] at h
    omega
  unfold submit_summary
  rw [if_neg h1, if_neg (by omega)]
  rfl

lemma submit_summary_list_spec (inputs : List SummaryInput) : ∀ (s : SummaryState),
    (∀ i ∈ inputs, validSummaryInput i) →
    ∃ created, (submit_summary_list s inputs).summaries = s.summaries ++ created ∧
      created.map SummaryRecord.id = List.range' s.summary_counter inputs.length ∧
      (submit_summary_list s inputs).summary_counter
        = s.summary_counter + inputs.length := by
  induction inputs with
  | nil =>
    intro s _
    exact ⟨[], by simp [submit_summary_list], by simp, by simp [submit_summary_list]⟩
  | cons i rest ih =>
    intro s hv
    obtain ⟨r, hrid, hstep⟩ :=
      submit_summary_accepts s i (hv i (List.mem_cons_self i rest))
    have hfold : submit_summary_list s (i :: rest) =
        submit_summary_list (submit_summary s i.title i.dtype i.content
          i.model_text i.time) rest := rfl
    obtain ⟨created, hcb, hcid, hcc⟩ :=
      ih ⟨some (s.summaries ++ [r]), s.summaries ++ [r], s.summary_counter + 1⟩
        (fun j hj => hv j (List.mem_cons_of_mem i hj))
    refine ⟨r :: created, ?_, ?_, ?_⟩
    · rw [hfold, hstep, hcb]
      simp
    · rw [List.length_cons, List.range'_succ, List.map_cons, hrid]
      exact congrArg (s.summary_counter :: ·) hcid
    · rw [hfold, hstep, hcc]
      show s.summary_counter + 1 + rest.length = s.summary_counter + (rest.length + 1)
      omega

/-- C6: within one session, `N` accepted submissions of one record kind
(blogs or document summaries) append `N` records of that kind whose
identifiers are the strictly increasing, contiguous range
`priorCount+1, …, priorCount+N`, where `priorCount` is the count of that
kind loaded from storage at startup; each accepted creation bumps that
kind's counter by exactly one. -/
theorem c6_identifier_assignment :
    (∀ (s : BlogState) (i : BlogInput), validBlogInput i →
      (submit_blog s i.user_name i.title i.content i.tag
        i.gemini i.polarity i.time).blog_counter = s.blog_counter + 1) ∧
    (∀ (file : Option (List Blog)) (inputs : List BlogInput),
      (∀ i ∈ inputs, validBlogInput i) →
      ∃ created,
        (submit_blog_list (init_blog_state file) inputs).blogs = load_blogs file ++ created ∧
        created.map Blog.id = List.range' ((load_blogs file).length + 1) inputs.length ∧
        (submit_blog_list (init_blog_state file) inputs).blog_counter
          = (load_blogs file).length + 1 + inputs.length) ∧
    (∀ (s : SummaryState) (i : SummaryInput), validSummaryInput i →
      (submit_summary s i.title i.dtype i.content
        i.model_text i.time).summary_counter = s.summary_counter + 1) ∧
    (∀ (file : Option (List SummaryRecord)) (inputs : List SummaryInput),
      (∀ i ∈ inputs, validSummaryInput i) →
      ∃ created,
        (submit_summary_list (init_summary_state file) inputs).summaries
          = load_summaries file ++ created ∧
        created.map SummaryRecord.id
          = List.range' ((load_summaries file).length + 1) inputs.length ∧
        (submit_summary_list (init_summary_state file) inputs).summary_counter
          = (load_summaries file).length + 1 + inputs.length) := by
  refine ⟨?_, ?_, ?_, ?_⟩
  · intro s i hi
    obtain ⟨b, _, hstep⟩ := submit_blog_accepts s i hi
    rw [hstep]
  · intro file inputs hv
    exact submit_blog_list_spec inputs (init_blog_state file) hv
  · intro s i hi
    obtain ⟨r, _, hstep⟩ := submit_summary_accepts s i hi
    rw [hstep]
  · intro file inputs hv
    exact submit_summary_list_spec inputs (init_summary_state file) hv

theorem c6_witness :
    validBlogInput ⟨"u".toList, "t".toList, List.replicate 50 'x', [], none, 0, 0⟩ ∧
    (submit_blog ⟨none, [], 1⟩ "u".toList "t".toList (List.replicate 50 'x')
      [] none 0 0).blog_counter = 2 ∧
    validSummaryInput ⟨[], [], List.replicate 100 'x', [], 0⟩ ∧
    (submit_summary ⟨none, [], 1⟩ [] [] (List.replicate 100 'x') [] 0).summary_counter = 2 :=
  ⟨by constructor <;> simp,
    c6_identifier_assignment.1 ⟨none, [], 1⟩
      ⟨"u".toList, "t".toList, List.replicate 50 'x', [], none, 0, 0⟩
      (by constructor <;> simp),
    by decide,
    c6_identifier_assignment.2.2.1 ⟨none, [], 1⟩ ⟨[], [], List.replicate 100 'x', [], 0⟩
      (by decide)⟩

/-- C7: the Record Store round-trips: loading immediately after saving
returns exactly the saved sequence (for blogs and for summaries, empty
sequences included), and loading when the backing file does not exist
returns the empty sequence rather than an error. -/
theorem c7_record_store_roundtrip :
    (∀ X : List Blog, load_blogs (save_blogs X) = X) ∧
    (∀ X : List SummaryRecord, load_summaries (save_summaries X) = X) ∧
    load_blogs none = [] ∧ load_summaries none = [] :=
  ⟨fun _ => rfl, fun _ => rfl, rfl, rfl⟩

/-- C8: a blog submission with content under 50 characters or with a
missing required field creates no record and leaves both the in-memory
and stored blog lists (and the counter) unchanged; a summary submission
with content under 100 characters likewise changes nothing. -/
theorem c8_validation_rejects :
    (∀ (s : BlogState) un ti co ta g p t,
      co.length < 50 ∨ un = [] ∨ ti = [] ∨ co = [] →
      submit_blog s un ti co ta g p t = s) ∧
    (∀ (s : SummaryState) ti dt co mt t,
      co.length < 100 →
      submit_summary s ti dt co mt t = s) := by
  constructor
  · intro s un ti co ta g p t h
    unfold submit_blog
    split_ifs with h1 h2
    · rfl
    · rfl
    all_goals exact absurd h (by tauto)
  · intro s ti dt co mt t h
    unfold submit_summary
    split_ifs with h1 h2
    · rfl
    · rfl
    all_goals
      exfalso
      have := pyStrip_length_le co
      omega

theorem c8_witness :
    (("short".toList).length < 50 ∨ "u".toList = [] ∨ "t".toList = [] ∨
      "short".toList = []) ∧
    submit_blog ⟨none, [], 1⟩ "u".toList "t".toList "short".toList [] none 0 0
      = ⟨none, [], 1⟩ :=
  ⟨Or.inl (by decide),
    c8_validation_rejects.1 ⟨none, [], 1⟩ "u".toList "t".toList "short".toList
      [] none 0 0 (Or.inl (by decide))⟩

/-- C9: the news-fetch boundary never raises: a timeout, a request
error, any other exception, an error-status response, and a response with
no articles all produce the empty sequence; and every returned headline
comes from an article with a non-empty title and a non-empty description,
rendered as the title, then `". "`, then the description. -/
theorem c9_news_boundary :
    fetch_news .timeout = [] ∧
    (∀ m, fetch_news (.requestError m) = []) ∧
    (∀ m, fetch_news (.otherError m) = []) ∧
    (∀ arts, fetch_news (.response true arts) = []) ∧
    fetch_news (.response false []) = [] ∧
    (∀ se arts h, h ∈ fetch_news (.response se arts) →
      ∃ a ∈ arts, ∃ ti d, a.title = some ti ∧ a.description = some d ∧
        ti ≠ [] ∧ d ≠ [] ∧ h = ti ++ ('.' :: ' ' :: []) ++ d) := by
  refine ⟨rfl, fun _ => rfl, fun _ => rfl, fun _ => rfl, rfl, ?_⟩
  intro se arts h hmem
  cases se
  · simp only [fetch_news, if_false, Bool.false_eq_true] at hmem
    split_ifs at hmem with he
    · simp at hmem
    · obtain ⟨a, ha, hfa⟩ := List.mem_filterMap.1 hmem
      unfold mkHeadline at hfa
      split_ifs at hfa with hcond
      rw [Bool.and_eq_true] at hcond
      obtain ⟨htt, hdt⟩ := hcond
      cases hti : a.title with
      | none => rw [hti] at htt; simp [pyTruthyStr] at htt
      | some ti =>
        cases hde : a.description with
        | none => rw [hde] at hdt; simp [pyTruthyStr] at hdt
        | some d =>
          rw [hti] at htt
          rw [hde] at hdt
          simp only [pyTruthyStr, Bool.not_eq_true'] at htt hdt
          refine ⟨a, ha, ti, d, hti, hde, ?_, ?_, ?_⟩
          · simpa using htt
          · simpa using hdt
          · rw [hti, hde] at hfa
            simp only [Option.getD_some] at hfa
            exact (Option.some_injective _ hfa).symm
  · simp only [fetch_news, if_true] at hmem
    simp at hmem

theorem c9_witness :
    "T. D".toList ∈ fetch_news (.response false [⟨some "T".toList, some "D".toList⟩]) ∧
    (∃ a ∈ [(⟨some "T".toList, some "D".toList⟩ : Article)], ∃ ti d,
      a.title = some ti ∧ a.description = some d ∧ ti ≠ [] ∧ d ≠ [] ∧
      "T. D".toList = ti ++ ('.' :: ' ' :: []) ++ d) :=
  ⟨by decide,
    c9_news_boundary.2.2.2.2.2 false [⟨some "T".toList, some "D".toList⟩]
      "T. D".toList (by decide)⟩

/-- C10: a query whose stripped form exactly equals a dictionary key
displays that single term with its definition; otherwise every key
containing the stripped query as a case-insensitive substring is a match,
at most five results are displayed, and a query that is empty after
stripping matches every term. -/
theorem c10_glossary_search :
    (∀ q, (∃ kv ∈ FINANCE_TERMS, kv.1 = pyStrip q) →
      ∃ v, glossary_displayed q = [(pyStrip q, v)] ∧ (pyStrip q, v) ∈ FINANCE_TERMS) ∧
    (∀ q ti, ti ∈ FINANCE_TERMS.map Prod.fst →
      pySubstring (pyLower (pyStrip q)) (pyLower ti) = true →
      ti ∈ glossary_matches q) ∧
    (∀ q, (glossary_displayed q).length ≤ 5) ∧
    (∀ q, pyStrip q = [] → glossary_matches q = FINANCE_TERMS.map Prod.fst) := by
  refine ⟨?_, ?_, ?_, ?_⟩
  · intro q hex
    obtain ⟨kv, hkv, hk⟩ := hex
    have hsome : (FINANCE_TERMS.find? (fun kv => kv.1 == pyStrip q)).isSome :=
      List.find?_isSome.2 ⟨kv, hkv, by simp [hk]⟩
    obtain ⟨kv2, hfind⟩ := Option.isSome_iff_exists.1 hsome
    have hmem := List.mem_of_find?_eq_some hfind
    have hp : kv2.1 = pyStrip q := by
      have := List.find?_some hfind
      simpa using this
    have hkv2 : kv2 = (pyStrip q, kv2.2) := by
      rw [← hp]
    refine ⟨kv2.2, ?_, ?_⟩
    · unfold glossary_displayed
      rw [hfind, hkv2]
    · rw [← hkv2]
      exact hmem
  · intro q ti hti hsub
    unfold glossary_matches
    exact List.mem_filter.2 ⟨hti, hsub⟩
  · intro q
    unfold glossary_displayed
    cases hfind : FINANCE_TERMS.find? (fun kv => kv.1 == pyStrip q) with
    | none =>
      simp only []
      exact le_trans (List.length_take_le 5 _) (le_refl 5)
    | some kv => simp
  · intro q hq
    unfold glossary_matches
    apply List.filter_eq_self.2
    intro a _
    rw [hq]
    exact decide_eq_true (show pyLower [] <:+: pyLower a from List.nil_infix)

theorem c10_witness :
    "Balance Sheet".toList ∈ FINANCE_TERMS.map Prod.fst ∧
    pySubstring (pyLower (pyStrip "sheet".toList)) (pyLower "Balance Sheet".toList) = true ∧
    "Balance Sheet".toList ∈ glossary_matches "sheet".toList :=
  ⟨by decide, by decide,
    c10_glossary_search.2.1 "sheet".toList "Balance Sheet".toList (by decide) (by decide)⟩
